import Mathlib

/-!
Verification development for `src/nix/instrumented_builder.rs` of the lorri
repository: a shallow embedding of the two-phase build orchestrator
(`instrumented_instantiation` / `run`), the line classifier
(`parse_evaluation_line`), the stream-aggregation fold, and the result model
(`Info` / `Success` / `Failure` / `OutputPaths`), together with theorems about
the claims of the specification.

Modelling conventions:
- `OsStr` is either valid UTF-8 text (a `String`) or an undecodable raw byte
  sequence; this mirrors `std::ffi::OsStr` and its `to_str` partiality.
- Rust panics (`panic!`) are modelled as the `Panic` error of an `Except`:
  they are a fatal outcome distinct from the typed `Info::Failure` value and
  from the typed `Error` variants, exactly as in the source.
- The subprocess itself is an external collaborator; the embedding starts from
  its observable `ProcessOutput` (exit status plus the two captured streams,
  already split into lines).  Spawn/IO errors (`Error::Instantiate`) happen
  before that point and are out of the embedded state space.
- The four `lazy_static!` regexes are embedded as executable matching
  functions over `List Char` with Rust regex semantics: patterns are anchored
  (`^ ... $`), `.` matches any character except `'\n'`, and `(.*)` capture
  groups are greedy with backtracking (the longest prefix such that the rest
  of the pattern still matches).
-/

/-- Rust `PathBuf` (constructed here only via `PathBuf::from(&str)`). -/
abbrev PathBuf := String

/-- A line of raw subprocess output: either decodable UTF-8 text or an
undecodable byte sequence (`OsStr::to_str` returned `None`). -/
inductive OsStr where
  | text (s : String)
  | bytes (b : List Nat)
deriving DecidableEq

/-- A nonblank line predicate for the line splitter (empty lines are dropped,
see `parse_nix_output`). -/
def OsStr.isBlank : OsStr → Bool
  | .text s => s.data.isEmpty
  | .bytes b => b.isEmpty

/-- Modelled from the spec: `StorePath` is defined outside `src/`; per the
spec it is an opaque build-output identifier wrapping the line read from the
machine-readable stream (`StorePath::from`). -/
structure StorePath where
  path : OsStr
deriving DecidableEq

/-- Modelled from the spec: `DrvFile` is defined outside `src/`; it is the
string-like handle for a not-yet-realized named output (`DrvFile(PathBuf)`). -/
structure DrvFile where
  path : PathBuf
deriving DecidableEq

/-- `StorePath::from` applied to one line of the machine-readable stream. -/
def StorePath.fromLine (l : OsStr) : StorePath := ⟨l⟩

/-- Modelled from the spec: `::nix::GcRootTempDir` is defined outside `src/`;
an opaque handle for the temporary GC-root directory. -/
structure GcRootTempDir where
  id : Nat
deriving DecidableEq

/-- Exit status of the phase-1 subprocess (`std::process::ExitStatus`). -/
structure ExitStatus where
  code : Int
deriving DecidableEq

/-- `ExitStatus::success`. -/
def ExitStatus.success (e : ExitStatus) : Bool := e.code == 0

/-- The observable behaviour of the phase-1 subprocess: exit status and the
two fully captured streams, split into lines. -/
structure ProcessOutput where
  status : ExitStatus
  stdout : List OsStr
  stderr : List OsStr
deriving DecidableEq

/-- `vec1::Vec1`: a nonempty vector, head plus tail. -/
abbrev Vec1 (α : Type) := α × List α

/-- `enum LogDatum` of the source: the classified diagnostic event. -/
inductive LogDatum where
  | Source (p : PathBuf)
  | ShellDrv (p : PathBuf)
  | ShellGcRootDrv (p : PathBuf)
  | Text (line : OsStr)
deriving DecidableEq

/-- `struct OutputPaths<T>`: the fixed two-slot named-output container. -/
structure OutputPaths (T : Type) where
  shell : T
  shell_gc_root : T
deriving DecidableEq

/-- `struct Success<T>` of the source (field for field). -/
structure Success (T : Type) where
  output_paths : T
  drvs : Vec1 StorePath × GcRootTempDir
  paths : List PathBuf
deriving DecidableEq

/-- `struct Failure` of the source: exit status and the retained log lines.
These are its only two fields. -/
structure Failure where
  exec_result : ExitStatus
  log_lines : List OsStr
deriving DecidableEq

/-- `enum Info<T>`: the typed success/failure outcome. -/
inductive Info (T : Type) where
  | Success (s : Success T)
  | Failure (f : Failure)
deriving DecidableEq

/-- `::nix::OnePathError`: opaque error of the external realize collaborator. -/
structure OnePathError where
  code : Nat
deriving DecidableEq

/-- `enum Error` of the source: the recoverable, typed error taxonomy.
`Instantiate` wraps an OS-level io error and `ThreadFailure` a worker panic
payload; both are opaque here. -/
inductive Error where
  | Instantiate (ioCode : Nat)
  | Build (e : OnePathError)
  | ThreadFailure
deriving DecidableEq

/-- The fatal internal-consistency conditions (`panic!` sites of the source),
kept distinct from both `Info.Failure` and `Error`. -/
inductive Panic where
  | unknownAttribute (attr drv : String)
  | duplicateAttribute (attr : String) (first second : PathBuf)
  | missingShell (stderr_results : List LogDatum)
  | missingShellGcRoot (stderr_results : List LogDatum)
  | noStorePath (stderr_results : List LogDatum)
deriving DecidableEq

deriving instance DecidableEq for Except

/-- Strip an expected literal prefix from a character list (one regex literal
step); `none` when the list does not start with the literal. -/
def dropPrefixCh : List Char → List Char → Option (List Char)
  | [], l => some l
  | _ :: _, [] => none
  | p :: ps, c :: cs => if p = c then dropPrefixCh ps cs else none

/-- The characters of the regex literal between the two capture groups of
`COPIED_SOURCE` and `LORRI_ATTR_DRV`: a quote, then space, dash, greater-than,
space, then a quote. -/
def sepChars : List Char := [ '\'', ' ', '-', '>', ' ', '\'' ]

/-- The characters of the literal store prefix inside the second capture
group of `LORRI_ATTR_DRV`. -/
def storeChars : List Char := "/nix/store/".data

/-- Anchored match of `^<pre>(.*)'$` with Rust semantics: the whole line must
be consumed, and `.` does not match a newline.  Used for the `EVAL_FILE` and
`LORRI_READ` regexes, whose capture is everything between the literal prefix
and the final quote. -/
def matchDelimLine (pre : List Char) (s : String) : Option String :=
  match dropPrefixCh pre s.data with
  | none => none
  | some rest =>
    match dropPrefixCh [ '\'' ] rest.reverse with
    | none => none
    | some revMid =>
      if '\n' ∈ revMid.reverse then none else some (String.mk revMid.reverse)

/-- Greedy backtracking split of the interior of `COPIED_SOURCE`:
`(.*)' -> '(?:.*)` over `mid`, trying the longest first group first, a split
being valid when both groups are newline-free. -/
def greedyQuoteSplit (mid : List Char) : Option (List Char × List Char) :=
  (List.range (mid.length + 1)).reverse.findSome? fun k =>
    match dropPrefixCh sepChars (mid.drop k) with
    | none => none
    | some s₂ =>
      if '\n' ∈ mid.take k ∨ '\n' ∈ s₂ then none else some (mid.take k, s₂)

/-- Greedy backtracking split of the interior of `LORRI_ATTR_DRV`:
`(.*)' -> '(/nix/store/.*)` over `mid`; a split is valid when the second
group carries the literal store prefix and both groups are newline-free. -/
def greedyAttrSplit (mid : List Char) : Option (List Char × List Char) :=
  (List.range (mid.length + 1)).reverse.findSome? fun k =>
    match dropPrefixCh sepChars (mid.drop k) with
    | none => none
    | some s₂ =>
      if storeChars <+: s₂ ∧ ¬ '\n' ∈ mid.take k ∧ ¬ '\n' ∈ s₂ then
        some (mid.take k, s₂)
      else none

/-- The `EVAL_FILE` regex: `^evaluating file '(?P<source>.*)'$`. -/
def matchEvalFile (s : String) : Option String :=
  matchDelimLine ( "evaluating file '" ).data s

/-- The `LORRI_READ` regex: `^trace: lorri read: '(?P<source>.*)'$`. -/
def matchLorriRead (s : String) : Option String :=
  matchDelimLine ( "trace: lorri read: '" ).data s

/-- The `COPIED_SOURCE` regex:
`^copied source '(?P<source>.*)' -> '(?:.*)'$`, returning the first capture. -/
def matchCopiedSource (s : String) : Option String :=
  match dropPrefixCh ( "copied source '" ).data s.data with
  | none => none
  | some rest =>
    match dropPrefixCh [ '\'' ] rest.reverse with
    | none => none
    | some revMid =>
      match greedyQuoteSplit revMid.reverse with
      | none => none
      | some x => some (String.mk x.1)

/-- The `LORRI_ATTR_DRV` regex:
`^trace: lorri attribute: '(?P<attribute>.*)' -> '(?P<drv>/nix/store/.*)'$`,
returning both captures. -/
def matchLorriAttrDrv (s : String) : Option (String × String) :=
  match dropPrefixCh ( "trace: lorri attribute: '" ).data s.data with
  | none => none
  | some rest =>
    match dropPrefixCh [ '\'' ] rest.reverse with
    | none => none
    | some revMid =>
      match greedyAttrSplit revMid.reverse with
      | none => none
      | some x => some (String.mk x.1, String.mk x.2)

/-- `parse_evaluation_line` of the source: classify one diagnostic line.
Undecodable lines pass through as `Text`; otherwise the four regexes are
tried in source order, an unknown attribute name is the
`panic!`-modelled fatal error, and an unmatched line passes through as
`Text` unchanged. -/
def parse_evaluation_line (line : OsStr) : Except Panic LogDatum :=
  match line with
  | .bytes _ => .ok (.Text line)
  | .text linestr =>
    match matchEvalFile linestr with
    | some src => .ok (.Source src)
    | none =>
      match matchCopiedSource linestr with
      | some src => .ok (.Source src)
      | none =>
        match matchLorriRead linestr with
        | some src => .ok (.Source src)
        | none =>
          match matchLorriAttrDrv linestr with
          | some x =>
            if x.1 = "shell" then .ok (.ShellDrv x.2)
            else if x.1 = "shell_gc_root" then .ok (.ShellGcRootDrv x.2)
            else .error (.unknownAttribute x.1 x.2)
          | none => .ok (.Text line)

/-- Modelled from the spec: `::nix::parse_nix_output` is defined outside
`src/`; §4.2 says it splits the captured stream on line boundaries and maps
each nonblank line through the given constructor, preserving order.  The
stream is given here already split into lines. -/
def parse_nix_output {α : Type} (output : List OsStr) (f : OsStr → α) : List α :=
  (output.filter fun l => ! l.isBlank).map f

/-- Monadic variant of `parse_nix_output` for the stderr pass, whose per-line
function `parse_evaluation_line` can hit the fatal unknown-attribute panic;
the panic of the first offending line aborts the whole pass, as in Rust. -/
def parse_nix_output_panicking (output : List OsStr)
    (f : OsStr → Except Panic LogDatum) : Except Panic (List LogDatum) :=
  (output.filter fun l => ! l.isBlank).mapM f

/-- The accumulator of the aggregation fold: ordered source paths, the
set-once named-output slots, and the retained log lines. -/
abbrev FoldAcc := List PathBuf × OutputPaths (Option DrvFile) × List OsStr

/-- One step of the aggregation fold over `stderr_results` (the closure of the
`fold` in `instrumented_instantiation`, lines 84-116 of the source): source
paths are appended in order, each named-output slot is set once and a second
assignment is the fatal duplicate panic, and only `Text` lines are appended
to `log_lines`. -/
def foldStep (acc : FoldAcc) (result : LogDatum) : Except Panic FoldAcc :=
  match acc with
  | (paths, output_paths, log_lines) =>
    match result with
    | .Source src => .ok (paths ++ [ src ], output_paths, log_lines)
    | .ShellDrv drv =>
      match output_paths.shell with
      | none =>
        .ok (paths, { output_paths with shell := some ⟨drv⟩ }, log_lines)
      | some old => .error (.duplicateAttribute "shell" old.path drv)
    | .ShellGcRootDrv drv =>
      match output_paths.shell_gc_root with
      | none =>
        .ok (paths, { output_paths with shell_gc_root := some ⟨drv⟩ }, log_lines)
      | some old => .error (.duplicateAttribute "shell_gc_root" old.path drv)
    | .Text line => .ok (paths, output_paths, log_lines ++ [ line ])

/-- Phase 1 of the orchestrator, `instrumented_instantiation`, starting from
the captured subprocess output (the spawn itself is an external step): parse
stderr into events, decode stdout (empty decode is the fatal `Vec1` panic,
raised before the exit-status branch), run the aggregation fold, then branch
on the exit status: non-zero exit returns the typed `Failure` with the status
and the retained log lines, zero exit requires both named-output slots (a
missing slot is a fatal panic) and returns the typed `Success`. -/
def instrumented_instantiation (gc_root_dir : GcRootTempDir)
    (output : ProcessOutput) : Except Panic (Info (OutputPaths DrvFile)) :=
  match parse_nix_output_panicking output.stderr parse_evaluation_line with
  | .error p => .error p
  | .ok stderr_results =>
    match parse_nix_output output.stdout StorePath.fromLine with
    | [] => .error (.noStorePath stderr_results)
    | d :: ds =>
      match stderr_results.foldlM foldStep ([], ⟨none, none⟩, []) with
      | .error p => .error p
      | .ok (paths, output_paths, log_lines) =>
        if ! output.status.success then
          .ok (.Failure ⟨output.status, log_lines⟩)
        else
          match output_paths with
          | ⟨none, _⟩ => .error (.missingShell stderr_results)
          | ⟨some _, none⟩ => .error (.missingShellGcRoot stderr_results)
          | ⟨some shell, some shell_gc_root⟩ =>
            .ok (.Success
              ⟨⟨shell, shell_gc_root⟩, ((d, ds), gc_root_dir), paths⟩)

/-- The two-phase orchestrator `run`: phase 1, then on `Success` the external
realize collaborator (`::nix::CallOpts::file(..).path()`, passed here as the
function `realize`) applied to the `shell_gc_root` handle only; its error is
wrapped as the typed `Error::Build`, and its realized path becomes both the
`output_paths` artifact and the sole element of `drvs`, with the phase-1
source-path list passed through untouched.  On `Failure` the failure value is
returned as is and realize is not consulted. -/
def run (realize : DrvFile → Except OnePathError (StorePath × GcRootTempDir))
    (gc_root_dir : GcRootTempDir) (output : ProcessOutput) :
    Except Panic (Except Error (Info StorePath)) :=
  match instrumented_instantiation gc_root_dir output with
  | .error p => .error p
  | .ok (.Success s) =>
    match realize s.output_paths.shell_gc_root with
    | .error e => .ok (.error (.Build e))
    | .ok realized =>
      .ok (.ok (.Success ⟨realized.1, ((realized.1, []), realized.2), s.paths⟩))
  | .ok (.Failure f) => .ok (.ok (.Failure f))

/-- The `Text` payload of an event, if any. -/
def textOf : LogDatum → Option OsStr
  | .Text l => some l
  | _ => none

/-- The `Source` payload of an event, if any. -/
def sourceOf : LogDatum → Option PathBuf
  | .Source p => some p
  | _ => none

/-- Number of `ShellDrv` events in a stream. -/
def countShell : List LogDatum → Nat
  | [] => 0
  | .ShellDrv _ :: rest => countShell rest + 1
  | _ :: rest => countShell rest

/-- Number of `ShellGcRootDrv` events in a stream. -/
def countGcRoot : List LogDatum → Nat
  | [] => 0
  | .ShellGcRootDrv _ :: rest => countGcRoot rest + 1
  | _ :: rest => countGcRoot rest

theorem string_data_append (a b : String) : (a ++ b).data = a.data ++ b.data := by
  cases a; cases b; rfl

theorem dropPrefixCh_self_append (xs ys : List Char) :
    dropPrefixCh xs (xs ++ ys) = some ys := by
  induction xs with
  | nil => rfl
  | cons x xs ih => simp [dropPrefixCh, ih]

theorem dropPrefixCh_eq_some {xs l r : List Char}
    (h : dropPrefixCh xs l = some r) : l = xs ++ r := by
  induction xs generalizing l with
  | nil => simpa [dropPrefixCh] using h
  | cons x xs ih =>
    cases l with
    | nil => simp [dropPrefixCh] at h
    | cons c cs =>
      by_cases hx : x = c
      · subst hx
        simp only [dropPrefixCh, if_pos rfl] at h
        simpa using ih h
      · simp [dropPrefixCh, hx] at h

theorem dropQuote_reverse (mid : List Char) :
    dropPrefixCh [ '\'' ] ((mid ++ [ '\'' ]).reverse) = some mid.reverse := by
  simp [List.reverse_append, dropPrefixCh]

theorem matchDelimLine_mk (pre pl : List Char) (h : '\n' ∉ pl) :
    matchDelimLine pre (String.mk (pre ++ (pl ++ [ '\'' ])))
      = some (String.mk pl) := by
  simp only [matchDelimLine, dropPrefixCh_self_append, dropQuote_reverse,
    List.reverse_reverse]
  rw [if_neg h]

theorem findSome?_rev_range {β : Type} (f : Nat → Option β) (b : β) :
    ∀ n k, k ≤ n → (∀ j, j ≤ n → j ≠ k → f j = none) → f k = some b →
      (List.range (n + 1)).reverse.findSome? f = some b := by
  intro n
  induction n with
  | zero =>
    intro k hk hnone hsome
    have hk0 : k = 0 := Nat.le_zero.mp hk
    subst hk0
    rw [List.range_succ]
    simp [List.findSome?_cons, hsome]
  | succ n ih =>
    intro k hk hnone hsome
    rw [List.range_succ, List.reverse_append, List.reverse_singleton,
      List.singleton_append, List.findSome?_cons]
    by_cases hkn : k = n + 1
    · subst hkn
      rw [hsome]
    · rw [hnone (n + 1) le_rfl (fun hc => hkn hc.symm)]
      exact ih k (by omega) (fun j hj hjk => hnone j (by omega) hjk) hsome

theorem greedyQuoteSplit_eq (pl ql : List Char) (hp : '\n' ∉ pl)
    (hq : '\n' ∉ ql)
    (huniq : ∀ j, j ≤ (pl ++ sepChars ++ ql).length → j ≠ pl.length →
      dropPrefixCh sepChars ((pl ++ sepChars ++ ql).drop j) = none) :
    greedyQuoteSplit (pl ++ sepChars ++ ql) = some (pl, ql) := by
  unfold greedyQuoteSplit
  apply findSome?_rev_range _ _ ((pl ++ sepChars ++ ql).length) pl.length
  · simp
  · intro j hj hjk
    rw [huniq j hj hjk]
  · have hdrop : (pl ++ sepChars ++ ql).drop pl.length = sepChars ++ ql := by
      rw [List.append_assoc, List.drop_left]
    have htake : (pl ++ sepChars ++ ql).take pl.length = pl := by
      rw [List.append_assoc, List.take_left]
    simp only [hdrop, dropPrefixCh_self_append, htake]
    simp [hp, hq]

theorem greedyAttrSplit_eq (nl tl : List Char) (hn : '\n' ∉ nl)
    (ht : '\n' ∉ tl)
    (huniq : ∀ j, j ≤ (nl ++ sepChars ++ (storeChars ++ tl)).length →
      j ≠ nl.length →
      dropPrefixCh sepChars ((nl ++ sepChars ++ (storeChars ++ tl)).drop j)
        = none) :
    greedyAttrSplit (nl ++ sepChars ++ (storeChars ++ tl))
      = some (nl, storeChars ++ tl) := by
  unfold greedyAttrSplit
  apply findSome?_rev_range _ _
    ((nl ++ sepChars ++ (storeChars ++ tl)).length) nl.length
  · simp
  · intro j hj hjk
    rw [huniq j hj hjk]
  · have hdrop : (nl ++ sepChars ++ (storeChars ++ tl)).drop nl.length
        = sepChars ++ (storeChars ++ tl) := by
      rw [List.append_assoc, List.drop_left]
    have htake : (nl ++ sepChars ++ (storeChars ++ tl)).take nl.length = nl := by
      rw [List.append_assoc, List.take_left]
    have hnostore : '\n' ∉ storeChars := by decide
    simp only [hdrop, dropPrefixCh_self_append, htake]
    rw [if_pos ⟨⟨tl, rfl⟩, hn, by simp [List.mem_append, hnostore, ht]⟩]


theorem parse_of_matchEvalFile {s src : String}
    (h : matchEvalFile s = some src) :
    parse_evaluation_line (.text s) = .ok (.Source src) := by
  unfold parse_evaluation_line
  simp only [h]

theorem parse_of_matchCopied {s src : String}
    (h1 : matchEvalFile s = none) (h2 : matchCopiedSource s = some src) :
    parse_evaluation_line (.text s) = .ok (.Source src) := by
  unfold parse_evaluation_line
  simp only [h1, h2]

theorem parse_of_matchRead {s src : String}
    (h1 : matchEvalFile s = none) (h2 : matchCopiedSource s = none)
    (h3 : matchLorriRead s = some src) :
    parse_evaluation_line (.text s) = .ok (.Source src) := by
  unfold parse_evaluation_line
  simp only [h1, h2, h3]

theorem parse_of_matchAttrUnknown {s : String} {x : String × String}
    (h1 : matchEvalFile s = none) (h2 : matchCopiedSource s = none)
    (h3 : matchLorriRead s = none) (h4 : matchLorriAttrDrv s = some x)
    (h5 : ¬ x.1 = "shell") (h6 : ¬ x.1 = "shell_gc_root") :
    parse_evaluation_line (.text s) = .error (.unknownAttribute x.1 x.2) := by
  unfold parse_evaluation_line
  simp only [h1, h2, h3, h4, if_neg h5, if_neg h6]

theorem parse_of_no_match {s : String}
    (h1 : matchEvalFile s = none) (h2 : matchCopiedSource s = none)
    (h3 : matchLorriRead s = none) (h4 : matchLorriAttrDrv s = none) :
    parse_evaluation_line (.text s) = .ok (.Text (.text s)) := by
  unfold parse_evaluation_line
  simp only [h1, h2, h3, h4]

/-- C7 counterexample: the spec names the third source-path shape
`trace: read: '<p>'`, but the classifier's regex requires
`trace: lorri read: '<p>'`; a line of the spec's claimed shape is classified
as opaque text, not as a source-path event. -/
theorem parse_trace_read_shape_not_source :
    parse_evaluation_line (.text "trace: read: '/foo'")
      = .ok (.Text (.text "trace: read: '/foo'"))
    ∧ parse_evaluation_line (.text "trace: read: '/foo'")
      ≠ .ok (.Source "/foo") := by decide

/-- C7 (amended): for the three source-path shapes actually matched by the
classifier — `evaluating file '<p>'`, `copied source '<p>' -> '<q>'` and
`trace: lorri read: '<p>'` — classification yields `Source p` with the path
exactly as written, no normalization.  `p` and `q` must be newline-free since
the regex `.` does not match a newline, and for the copied-source shape the
hypothesis `huniq` states that the separator `' -> '` occurs at exactly one
position of the regex interior, which makes the greedy capture exact; this
holds in particular whenever `p` and `q` contain no quote character. -/
theorem parse_evaluation_line_source_shapes (p q : String)
    (hp : '\n' ∉ p.data) (hq : '\n' ∉ q.data)
    (huniq : ∀ j, j ≤ (p.data ++ sepChars ++ q.data).length →
      j ≠ p.data.length →
      dropPrefixCh sepChars ((p.data ++ sepChars ++ q.data).drop j) = none) :
    parse_evaluation_line (.text ( "evaluating file '" ++ p ++ "'" ))
        = .ok (.Source p)
    ∧ parse_evaluation_line (.text ( "trace: lorri read: '" ++ p ++ "'" ))
        = .ok (.Source p)
    ∧ parse_evaluation_line
          (.text ( "copied source '" ++ p ++ "' -> '" ++ q ++ "'" ))
        = .ok (.Source p) := by
  obtain ⟨pl⟩ := p
  obtain ⟨ql⟩ := q
  replace hp : '\n' ∉ pl := hp
  replace hq : '\n' ∉ ql := hq
  replace huniq : ∀ j, j ≤ (pl ++ sepChars ++ ql).length → j ≠ pl.length →
      dropPrefixCh sepChars ((pl ++ sepChars ++ ql).drop j) = none := huniq
  refine ⟨?_, ?_, ?_⟩
  · exact parse_of_matchEvalFile
      (matchDelimLine_mk ( "evaluating file '" ).data pl hp)
  · exact parse_of_matchRead rfl rfl
      (matchDelimLine_mk ( "trace: lorri read: '" ).data pl hp)
  · have hm : matchCopiedSource
        (String.mk (( "copied source '" ).data
          ++ ((pl ++ sepChars ++ ql) ++ [ '\'' ])))
        = some (String.mk pl) := by
      unfold matchCopiedSource
      rw [show (String.mk (( "copied source '" ).data
            ++ ((pl ++ sepChars ++ ql) ++ [ '\'' ]))).data
          = ( "copied source '" ).data ++ ((pl ++ sepChars ++ ql) ++ [ '\'' ])
          from rfl]
      simp only [dropPrefixCh_self_append, dropQuote_reverse,
        List.reverse_reverse, greedyQuoteSplit_eq pl ql hp hq huniq]
    exact parse_of_matchCopied rfl hm

/-- C7 witness: the three amended shapes at a concrete path. -/
theorem parse_evaluation_line_source_shapes_witness :
    parse_evaluation_line (.text "evaluating file '/src/a.nix'")
        = .ok (.Source "/src/a.nix")
    ∧ parse_evaluation_line (.text "trace: lorri read: '/src/a.nix'")
        = .ok (.Source "/src/a.nix")
    ∧ parse_evaluation_line
          (.text "copied source '/src/a.nix' -> '/nix/store/b'")
        = .ok (.Source "/src/a.nix") :=
  parse_evaluation_line_source_shapes "/src/a.nix" "/nix/store/b"
    (by decide) (by decide) (by decide)

theorem string_mk_data (l : List Char) : (String.mk l).data = l := rfl

/-- C9 counterexample: the spec's claimed attribute shape
`trace: attribute: '<name>' -> '<store-path>'` (without the `lorri` marker)
matches none of the classifier's regexes, so with the unknown name `foo` it
is classified as opaque text rather than raising the fatal panic. -/
theorem parse_plain_attribute_shape_no_panic :
    parse_evaluation_line (.text "trace: attribute: 'foo' -> '/nix/store/x'")
      = .ok (.Text (.text "trace: attribute: 'foo' -> '/nix/store/x'")) := by
  decide

/-- C9 (amended): for a decoded attribute trace line of the shape the
classifier actually matches, `trace: lorri attribute: '<name>' -> '<drv>'`
with `<drv>` starting with `/nix/store/`, a `<name>` that is neither `shell`
nor `shell_gc_root` raises the fatal unknown-attribute panic instead of
returning any event or recoverable parse failure.  `huniq` is the
unambiguity of the `' -> '` separator inside the regex interior (it holds in
particular when `<name>` and `<drv>` contain no quote character); both parts
must be newline-free since the regex `.` does not match a newline. -/
theorem parse_unknown_attribute_panics (name drv : String)
    (hshell : ¬ name = "shell") (hgc : ¬ name = "shell_gc_root")
    (hn : '\n' ∉ name.data) (hd : '\n' ∉ drv.data)
    (huniq : ∀ j,
      j ≤ (name.data ++ sepChars ++ (storeChars ++ drv.data)).length →
      j ≠ name.data.length →
      dropPrefixCh sepChars
        ((name.data ++ sepChars ++ (storeChars ++ drv.data)).drop j) = none) :
    parse_evaluation_line
        (.text ( "trace: lorri attribute: '" ++ name ++ "' -> '/nix/store/"
          ++ drv ++ "'" ))
      = .error (.unknownAttribute name ( "/nix/store/" ++ drv )) := by
  obtain ⟨nl⟩ := name
  obtain ⟨dl⟩ := drv
  replace hn : '\n' ∉ nl := hn
  replace hd : '\n' ∉ dl := hd
  replace huniq : ∀ j, j ≤ (nl ++ sepChars ++ (storeChars ++ dl)).length →
      j ≠ nl.length →
      dropPrefixCh sepChars
        ((nl ++ sepChars ++ (storeChars ++ dl)).drop j) = none := huniq
  have hline : ( "trace: lorri attribute: '" ++ String.mk nl
        ++ "' -> '/nix/store/" ++ String.mk dl ++ "'" : String)
      = String.mk (( "trace: lorri attribute: '" ).data
          ++ ((nl ++ sepChars ++ (storeChars ++ dl)) ++ [ '\'' ])) := by
    apply String.ext
    simp only [string_data_append, string_mk_data]
    simp [sepChars, storeChars, List.append_assoc]
  rw [hline]
  have hm : matchLorriAttrDrv
      (String.mk (( "trace: lorri attribute: '" ).data
        ++ ((nl ++ sepChars ++ (storeChars ++ dl)) ++ [ '\'' ])))
      = some (String.mk nl, String.mk (storeChars ++ dl)) := by
    unfold matchLorriAttrDrv
    rw [show (String.mk (( "trace: lorri attribute: '" ).data
          ++ ((nl ++ sepChars ++ (storeChars ++ dl)) ++ [ '\'' ]))).data
        = ( "trace: lorri attribute: '" ).data
          ++ ((nl ++ sepChars ++ (storeChars ++ dl)) ++ [ '\'' ]) from rfl]
    simp only [dropPrefixCh_self_append, dropQuote_reverse,
      List.reverse_reverse, greedyAttrSplit_eq nl dl hn hd huniq]
  show parse_evaluation_line
      (.text (String.mk (( "trace: lorri attribute: '" ).data
        ++ ((nl ++ sepChars ++ (storeChars ++ dl)) ++ [ '\'' ]))))
    = .error (.unknownAttribute (String.mk nl) (String.mk (storeChars ++ dl)))
  refine parse_of_matchAttrUnknown ?_ ?_ ?_ hm hshell hgc <;> rfl

/-- C9 witness: the unknown attribute name `foo` panics. -/
theorem parse_unknown_attribute_panics_witness :
    parse_evaluation_line
        (.text "trace: lorri attribute: 'foo' -> '/nix/store/x'")
      = .error (.unknownAttribute "foo" "/nix/store/x") :=
  parse_unknown_attribute_panics "foo" "x" (by decide) (by decide)
    (by decide) (by decide) (by decide)

/-- C8: any input line that is either not decodable as UTF-8 text, or is
decodable text matched by none of the four known regexes, is classified as
an opaque-text event carrying the original line unchanged, so reconstructing
the output from the event reproduces the line exactly. -/
theorem parse_unmatched_line_roundtrip (line : OsStr)
    (h : ∀ s, line = OsStr.text s →
      matchEvalFile s = none ∧ matchCopiedSource s = none
      ∧ matchLorriRead s = none ∧ matchLorriAttrDrv s = none) :
    parse_evaluation_line line = .ok (.Text line) := by
  cases line with
  | bytes b => rfl
  | text s =>
    obtain ⟨h1, h2, h3, h4⟩ := h s rfl
    exact parse_of_no_match h1 h2 h3 h4

/-- C8 witness: an undecodable byte line and an unmatched text line both
round-trip unchanged. -/
theorem parse_unmatched_line_roundtrip_witness :
    parse_evaluation_line (.bytes [ 255, 0 ])
        = .ok (.Text (.bytes [ 255, 0 ]))
    ∧ parse_evaluation_line (.text "downloading 'https://x'...")
        = .ok (.Text (.text "downloading 'https://x'...")) :=
  ⟨parse_unmatched_line_roundtrip (.bytes [ 255, 0 ]) (fun _ hs => nomatch hs),
   parse_unmatched_line_roundtrip (.text "downloading 'https://x'...")
     (fun s hs => by
       injection hs with h
       subst h
       exact ⟨by decide, by decide, by decide, by decide⟩)⟩

theorem foldlM_foldStep_ok (datums : List LogDatum) :
    ∀ (paths : List PathBuf) (ops : OutputPaths (Option DrvFile))
      (logs : List OsStr) (res : FoldAcc),
      datums.foldlM foldStep (paths, ops, logs) = .ok res →
      res.1 = paths ++ datums.filterMap sourceOf
      ∧ res.2.2 = logs ++ datums.filterMap textOf := by
  induction datums with
  | nil =>
    intro paths ops logs res h
    have hres : Except.ok (ε := Panic) (paths, ops, logs) = .ok res := h
    obtain rfl : (paths, ops, logs) = res := by simpa using hres
    simp [sourceOf, textOf]
  | cons d rest ih =>
    intro paths ops logs res h
    rw [List.foldlM_cons] at h
    cases d with
    | Source src =>
      replace h : rest.foldlM foldStep (paths ++ [ src ], ops, logs)
          = .ok res := h
      obtain ⟨hp, hl⟩ := ih (paths ++ [ src ]) ops logs res h
      refine ⟨?_, ?_⟩
      · rw [hp]
        simp [sourceOf, List.filterMap_cons, List.append_assoc]
      · rw [hl]
        simp [textOf, List.filterMap_cons]
    | ShellDrv drv =>
      obtain ⟨sh, gc⟩ := ops
      cases sh with
      | none =>
        replace h : rest.foldlM foldStep (paths, ⟨some ⟨drv⟩, gc⟩, logs)
            = .ok res := h
        obtain ⟨hp, hl⟩ := ih paths ⟨some ⟨drv⟩, gc⟩ logs res h
        refine ⟨?_, ?_⟩
        · rw [hp]
          simp [sourceOf, List.filterMap_cons]
        · rw [hl]
          simp [textOf, List.filterMap_cons]
      | some old =>
        replace h : Except.error (ε := Panic) (α := FoldAcc)
            (.duplicateAttribute "shell" old.path drv) = .ok res := h
        simp at h
    | ShellGcRootDrv drv =>
      obtain ⟨sh, gc⟩ := ops
      cases gc with
      | none =>
        replace h : rest.foldlM foldStep (paths, ⟨sh, some ⟨drv⟩⟩, logs)
            = .ok res := h
        obtain ⟨hp, hl⟩ := ih paths ⟨sh, some ⟨drv⟩⟩ logs res h
        refine ⟨?_, ?_⟩
        · rw [hp]
          simp [sourceOf, List.filterMap_cons]
        · rw [hl]
          simp [textOf, List.filterMap_cons]
      | some old =>
        replace h : Except.error (ε := Panic) (α := FoldAcc)
            (.duplicateAttribute "shell_gc_root" old.path drv) = .ok res := h
        simp at h
    | Text line =>
      replace h : rest.foldlM foldStep (paths, ops, logs ++ [ line ])
          = .ok res := h
      obtain ⟨hp, hl⟩ := ih paths ops (logs ++ [ line ]) res h
      refine ⟨?_, ?_⟩
      · rw [hp]
        simp [sourceOf, List.filterMap_cons]
      · rw [hl]
        simp [textOf, List.filterMap_cons, List.append_assoc]

theorem foldlM_foldStep_duplicate (datums : List LogDatum) :
    ∀ (paths : List PathBuf) (ops : OutputPaths (Option DrvFile))
      (logs : List OsStr),
      (2 ≤ countShell datums ∨ (ops.shell.isSome ∧ 1 ≤ countShell datums)
        ∨ 2 ≤ countGcRoot datums
        ∨ (ops.shell_gc_root.isSome ∧ 1 ≤ countGcRoot datums)) →
      ∃ a o n, datums.foldlM foldStep (paths, ops, logs)
        = .error (.duplicateAttribute a o n) := by
  induction datums with
  | nil =>
    intro paths ops logs h
    rcases h with h | ⟨_, h⟩ | h | ⟨_, h⟩ <;> simp [countShell, countGcRoot] at h
  | cons d rest ih =>
    intro paths ops logs h
    obtain ⟨sh, gc⟩ := ops
    rw [List.foldlM_cons]
    cases d with
    | Source src =>
      show ∃ a o n, rest.foldlM foldStep (paths ++ [ src ], ⟨sh, gc⟩, logs)
        = .error (.duplicateAttribute a o n)
      apply ih
      simpa [countShell, countGcRoot] using h
    | ShellDrv drv =>
      cases sh with
      | none =>
        show ∃ a o n,
          rest.foldlM foldStep (paths, ⟨some ⟨drv⟩, gc⟩, logs)
            = .error (.duplicateAttribute a o n)
        apply ih
        simp only [countShell, countGcRoot] at h
        rcases h with h | ⟨hs, _⟩ | h | ⟨hg, hc⟩
        · exact Or.inr (Or.inl ⟨rfl, by omega⟩)
        · simp at hs
        · exact Or.inr (Or.inr (Or.inl h))
        · exact Or.inr (Or.inr (Or.inr ⟨hg, hc⟩))
      | some old => exact ⟨ "shell", old.path, drv, rfl⟩
    | ShellGcRootDrv drv =>
      cases gc with
      | none =>
        show ∃ a o n,
          rest.foldlM foldStep (paths, ⟨sh, some ⟨drv⟩⟩, logs)
            = .error (.duplicateAttribute a o n)
        apply ih
        simp only [countShell, countGcRoot] at h
        rcases h with h | ⟨hs, hc⟩ | h | ⟨hg, _⟩
        · exact Or.inl h
        · exact Or.inr (Or.inl ⟨hs, hc⟩)
        · exact Or.inr (Or.inr (Or.inr ⟨rfl, by omega⟩))
        · simp at hg
      | some old => exact ⟨ "shell_gc_root", old.path, drv, rfl⟩
    | Text line =>
      show ∃ a o n, rest.foldlM foldStep (paths, ⟨sh, gc⟩, logs ++ [ line ])
        = .error (.duplicateAttribute a o n)
      apply ih
      simpa [countShell, countGcRoot] using h

/-- C5: if the classified stderr stream contains two `shell` attribute events
or two `shell_gc_root` attribute events, the aggregation fold raises the
fatal duplicate-assignment panic; the fold runs before the exit-status
branch, so no exit-status hypothesis is needed — the panic is reached even
when the subprocess exited non-zero.  (The only panic the fold itself can
raise is the duplicate-assignment one, so the conclusion pins its kind.) -/
theorem instantiation_duplicate_attribute_panics (gcd : GcRootTempDir)
    (out : ProcessOutput) (datums : List LogDatum) (d : StorePath)
    (ds : List StorePath)
    (hparse : parse_nix_output_panicking out.stderr parse_evaluation_line
      = .ok datums)
    (hstdout : parse_nix_output out.stdout StorePath.fromLine = d :: ds)
    (hdup : 2 ≤ countShell datums ∨ 2 ≤ countGcRoot datums) :
    ∃ a o n, instrumented_instantiation gcd out
      = .error (.duplicateAttribute a o n) := by
  obtain ⟨a, o, n, hfold⟩ := foldlM_foldStep_duplicate datums [] ⟨none, none⟩ []
    (by rcases hdup with h | h
        · exact Or.inl h
        · exact Or.inr (Or.inr (Or.inl h)))
  refine ⟨a, o, n, ?_⟩
  simp only [instrumented_instantiation, hparse, hstdout, hfold]

/-- C5 witness: two `shell` attribute lines with a non-zero exit status. -/
theorem instantiation_duplicate_attribute_panics_witness :
    ∃ a o n, instrumented_instantiation ⟨4⟩
        ⟨⟨1⟩, [ .text "/nix/store/x" ],
          [ .text "trace: lorri attribute: 'shell' -> '/nix/store/b'",
            .text "trace: lorri attribute: 'shell' -> '/nix/store/c'" ]⟩
      = .error (.duplicateAttribute a o n) :=
  instantiation_duplicate_attribute_panics ⟨4⟩ _
    [ .ShellDrv "/nix/store/b", .ShellDrv "/nix/store/c" ]
    ⟨.text "/nix/store/x" ⟩ [] (by decide) (by decide) (Or.inl (by decide))

/-- C4: when the subprocess exits with status zero but the aggregated stream
left the `shell` or the `shell_gc_root` slot empty, `instrumented_instantiation`
raises the corresponding fatal missing-attribute panic — an `Except.error`
of the `Panic` type, distinct from the typed `Info.Failure` outcome and from
the typed `Error` variants. -/
theorem instantiation_missing_output_panics (gcd : GcRootTempDir)
    (out : ProcessOutput) (datums : List LogDatum) (d : StorePath)
    (ds : List StorePath) (paths : List PathBuf)
    (ops : OutputPaths (Option DrvFile)) (logs : List OsStr)
    (hparse : parse_nix_output_panicking out.stderr parse_evaluation_line
      = .ok datums)
    (hstdout : parse_nix_output out.stdout StorePath.fromLine = d :: ds)
    (hfold : datums.foldlM foldStep ([], ⟨none, none⟩, [])
      = .ok (paths, ops, logs))
    (hsucc : out.status.success = true)
    (hmiss : ops.shell = none ∨ ops.shell_gc_root = none) :
    instrumented_instantiation gcd out = .error (.missingShell datums)
    ∨ instrumented_instantiation gcd out
      = .error (.missingShellGcRoot datums) := by
  obtain ⟨sh, gc⟩ := ops
  cases sh with
  | none =>
    left
    simp only [instrumented_instantiation, hparse, hstdout, hfold, hsucc,
      Bool.not_true, Bool.false_eq_true, if_false]
  | some shd =>
    cases gc with
    | none =>
      right
      simp only [instrumented_instantiation, hparse, hstdout, hfold, hsucc,
        Bool.not_true, Bool.false_eq_true, if_false]
    | some gcd2 =>
      rcases hmiss with h | h <;> simp at h

/-- C4 witness: exit status zero with only the `shell` attribute emitted
raises the missing `shell_gc_root` panic (spec scenario C). -/
theorem instantiation_missing_output_panics_witness :
    instrumented_instantiation ⟨6⟩
        ⟨⟨0⟩, [ .text "/nix/store/x" ],
          [ .text "trace: lorri attribute: 'shell' -> '/nix/store/b'" ]⟩
      = .error (.missingShell [ .ShellDrv "/nix/store/b" ])
    ∨ instrumented_instantiation ⟨6⟩
        ⟨⟨0⟩, [ .text "/nix/store/x" ],
          [ .text "trace: lorri attribute: 'shell' -> '/nix/store/b'" ]⟩
      = .error (.missingShellGcRoot [ .ShellDrv "/nix/store/b" ]) :=
  instantiation_missing_output_panics ⟨6⟩ _ [ .ShellDrv "/nix/store/b" ]
    ⟨.text "/nix/store/x" ⟩ [] [] ⟨some ⟨ "/nix/store/b" ⟩, none⟩ []
    (by decide) (by decide) (by decide) (by decide) (Or.inr (by decide))

/-- C1 counterexample: on a failing run, the line of a classified
source-path event (`evaluating file '/a'`) is absent from the failure
transcript — the transcript retains only the opaque-text lines, so it does
not contain the line of every event. -/
theorem failure_transcript_drops_classified_lines :
    instrumented_instantiation ⟨0⟩
        ⟨⟨1⟩, [ .text "/nix/store/x" ],
          [ .text "evaluating file '/a'", .text "boom" ]⟩
      = .ok (.Failure ⟨⟨1⟩, [ .text "boom" ]⟩)
    ∧ (OsStr.text "evaluating file '/a'") ∉ [ OsStr.text "boom" ] := by
  decide

/-- C1 (amended): on a failing run (non-zero exit status, with the stderr
pass and the fold panic-free and a nonempty stdout decode), the failure
transcript is exactly the subsequence of opaque-text (`Text`) lines of the
classified stream, in original emission order; the lines of source-path and
named-output events are not included. -/
theorem instantiation_failure_transcript (gcd : GcRootTempDir)
    (out : ProcessOutput) (datums : List LogDatum) (d : StorePath)
    (ds : List StorePath) (paths : List PathBuf)
    (ops : OutputPaths (Option DrvFile)) (logs : List OsStr)
    (hparse : parse_nix_output_panicking out.stderr parse_evaluation_line
      = .ok datums)
    (hstdout : parse_nix_output out.stdout StorePath.fromLine = d :: ds)
    (hfold : datums.foldlM foldStep ([], ⟨none, none⟩, [])
      = .ok (paths, ops, logs))
    (hfail : out.status.success = false) :
    instrumented_instantiation gcd out
      = .ok (.Failure ⟨out.status, datums.filterMap textOf⟩) := by
  have hl := (foldlM_foldStep_ok datums [] ⟨none, none⟩ []
    (paths, ops, logs) hfold).2
  simp only [List.nil_append] at hl
  simp only [instrumented_instantiation, hparse, hstdout, hfold, hfail,
    Bool.not_false, if_true, hl]

/-- C1 witness: a failing run whose stderr mixes a source-path line and an
opaque line; the transcript is the `filterMap` of the `Text` payloads. -/
theorem instantiation_failure_transcript_witness :
    instrumented_instantiation ⟨2⟩
        ⟨⟨1⟩, [ .text "/nix/store/y" ],
          [ .text "trace: lorri read: '/w.nix'", .text "oops" ]⟩
      = .ok (.Failure ⟨⟨1⟩,
          [ LogDatum.Source "/w.nix", LogDatum.Text (.text "oops") ].filterMap
            textOf⟩) :=
  instantiation_failure_transcript ⟨2⟩ _
    [ .Source "/w.nix", .Text (.text "oops") ] ⟨.text "/nix/store/y" ⟩ []
    [ "/w.nix" ] ⟨none, none⟩ [ .text "oops" ]
    (by decide) (by decide) (by decide) (by decide)

/-- C2 (code-bug evidence): on a failing run the returned `Failure` value
consists of the exit status and the opaque-text log lines only; the source
paths gathered before the failure leave no trace in it — two runs differing
only in which source file was touched (`/a` versus `/b`) produce identical
`Failure` outcomes.  This contradicts the spec sentence (the `Failure`
should carry the ordered SourcePath list gathered so far) and the source's
own doc comments on `Info` ("Even if the exit code is not 0, there is still
valuable information in the output, like new paths to watch"). -/
theorem failure_discards_gathered_source_paths :
    instrumented_instantiation ⟨0⟩
        ⟨⟨1⟩, [ .text "/nix/store/x" ],
          [ .text "evaluating file '/a'", .text "failmsg" ]⟩
      = instrumented_instantiation ⟨0⟩
        ⟨⟨1⟩, [ .text "/nix/store/x" ],
          [ .text "evaluating file '/b'", .text "failmsg" ]⟩
    ∧ instrumented_instantiation ⟨0⟩
        ⟨⟨1⟩, [ .text "/nix/store/x" ],
          [ .text "evaluating file '/a'", .text "failmsg" ]⟩
      = .ok (.Failure ⟨⟨1⟩, [ .text "failmsg" ]⟩) := by
  decide

/-- C10: for a completed phase-1 run, if the machine-readable stdout decodes
to an empty sequence, `instrumented_instantiation` raises the fatal
`noStorePath` panic (an `Except.error`, so no typed `Success` or `Failure`
outcome is produced), regardless of the exit status; and the decode itself
is the order-preserving map of the store-path constructor over the nonblank
stdout lines. -/
theorem stdout_decode_empty_panics (gcd : GcRootTempDir)
    (out : ProcessOutput) (datums : List LogDatum)
    (hparse : parse_nix_output_panicking out.stderr parse_evaluation_line
      = .ok datums) :
    (parse_nix_output out.stdout StorePath.fromLine = [] →
      instrumented_instantiation gcd out = .error (.noStorePath datums))
    ∧ parse_nix_output out.stdout StorePath.fromLine
      = (out.stdout.filter fun l => ! l.isBlank).map StorePath.fromLine := by
  constructor
  · intro hempty
    simp only [instrumented_instantiation, hparse, hempty]
  · rfl

/-- C10 witness: an empty stdout on a completed (here even successful) run
panics with the classified stderr attached. -/
theorem stdout_decode_empty_panics_witness :
    instrumented_instantiation ⟨1⟩ ⟨⟨0⟩, [], [ .text "boom" ]⟩
      = .error (.noStorePath [ .Text (.text "boom") ]) :=
  (stdout_decode_empty_panics ⟨1⟩ ⟨⟨0⟩, [], [ .text "boom" ]⟩
    [ .Text (.text "boom") ] (by decide)).1 (by decide)

theorem instantiation_not_success_of_fail (gcd : GcRootTempDir)
    (out : ProcessOutput) (hfail : out.status.success = false)
    (s : Success (OutputPaths DrvFile)) :
    instrumented_instantiation gcd out ≠ .ok (.Success s) := by
  intro hcontra
  cases hp : parse_nix_output_panicking out.stderr parse_evaluation_line with
  | error p => simp [instrumented_instantiation, hp] at hcontra
  | ok datums =>
    cases hs : parse_nix_output out.stdout StorePath.fromLine with
    | nil => simp [instrumented_instantiation, hp, hs] at hcontra
    | cons d ds =>
      cases hf : datums.foldlM foldStep ([], ⟨none, none⟩, []) with
      | error p => simp [instrumented_instantiation, hp, hs, hf] at hcontra
      | ok acc =>
        obtain ⟨paths, ops, logs⟩ := acc
        simp [instrumented_instantiation, hp, hs, hf, hfail] at hcontra

/-- C6: phase 2 is gated on phase-1 success.  First part: when phase 1 exits
with a non-zero status, the result of `run` does not depend on the realize
collaborator at all — it is never invoked.  Second part: whenever phase 1
produced a typed `Success` (which requires exit status zero and both named
outputs present), `run`'s result is exactly the one-step continuation that
applies `realize` to the `shell_gc_root` handle — the only place realize is
consulted. -/
theorem run_realize_gating (gcd : GcRootTempDir) (out : ProcessOutput) :
    (out.status.success = false →
      ∀ r₁ r₂ : DrvFile → Except OnePathError (StorePath × GcRootTempDir),
        run r₁ gcd out = run r₂ gcd out)
    ∧ (∀ (s : Success (OutputPaths DrvFile))
        (r : DrvFile → Except OnePathError (StorePath × GcRootTempDir)),
        instrumented_instantiation gcd out = .ok (.Success s) →
        run r gcd out
          = match r s.output_paths.shell_gc_root with
            | .error e => .ok (.error (.Build e))
            | .ok rz =>
              .ok (.ok (.Success ⟨rz.1, ((rz.1, []), rz.2), s.paths⟩))) := by
  constructor
  · intro hfail r₁ r₂
    unfold run
    cases hinst : instrumented_instantiation gcd out with
    | error p => rfl
    | ok info =>
      cases info with
      | Failure f => rfl
      | Success s =>
        exact absurd hinst (instantiation_not_success_of_fail gcd out hfail s)
  · intro s r hinst
    unfold run
    rw [hinst]

/-- C6 witness: with a failing phase 1 two different realize collaborators
give the same result, and with a successful phase 1 the result is the
realize continuation applied to the `shell_gc_root` handle. -/
theorem run_realize_gating_witness :
    run (fun _ => .ok (⟨.text "/nix/store/r1" ⟩, ⟨7⟩)) ⟨3⟩
        ⟨⟨1⟩, [ .text "/nix/store/x" ], [ .text "boom" ]⟩
      = run (fun _ => .error ⟨9⟩) ⟨3⟩
        ⟨⟨1⟩, [ .text "/nix/store/x" ], [ .text "boom" ]⟩
    ∧ run (fun _ => .ok (⟨.text "/nix/store/r1" ⟩, ⟨7⟩)) ⟨3⟩
        ⟨⟨0⟩, [ .text "/nix/store/x" ],
          [ .text "trace: lorri attribute: 'shell' -> '/nix/store/s'",
            .text "trace: lorri attribute: 'shell_gc_root' -> '/nix/store/g'" ]⟩
      = .ok (.ok (.Success ⟨⟨.text "/nix/store/r1" ⟩,
          ((⟨.text "/nix/store/r1" ⟩, []), ⟨7⟩), []⟩)) := by
  constructor
  · exact (run_realize_gating ⟨3⟩
      ⟨⟨1⟩, [ .text "/nix/store/x" ], [ .text "boom" ]⟩).1 (by decide) _ _
  · have h := (run_realize_gating ⟨3⟩
      ⟨⟨0⟩, [ .text "/nix/store/x" ],
        [ .text "trace: lorri attribute: 'shell' -> '/nix/store/s'",
          .text "trace: lorri attribute: 'shell_gc_root' -> '/nix/store/g'" ]⟩).2
      ⟨⟨⟨ "/nix/store/s" ⟩, ⟨ "/nix/store/g" ⟩⟩,
        ((⟨.text "/nix/store/x" ⟩, []), ⟨3⟩), []⟩
      (fun _ => .ok (⟨.text "/nix/store/r1" ⟩, ⟨7⟩)) (by decide)
    exact h.trans rfl

/-- C3: when phase 1 returns `Success s` and the realize collaborator
resolves the `shell_gc_root` handle to the realized path `rp` (with durable
root token `rroot`), the final success exposes `rp` both as the singular
`output_paths` artifact (the named-outputs slot of `Success`, collapsed to a
single path after phase 2, per the source's own TODO) and as the sole
element of the `drvs` list, and its source-path list is exactly `s.paths`,
the list accumulated during phase 1, element for element and in order. -/
theorem run_success_exposes_realized
    (realize : DrvFile → Except OnePathError (StorePath × GcRootTempDir))
    (gcd : GcRootTempDir) (out : ProcessOutput)
    (s : Success (OutputPaths DrvFile)) (rp : StorePath)
    (rroot : GcRootTempDir)
    (hinst : instrumented_instantiation gcd out = .ok (.Success s))
    (hreal : realize s.output_paths.shell_gc_root = .ok (rp, rroot)) :
    run realize gcd out
      = .ok (.ok (.Success ⟨rp, ((rp, []), rroot), s.paths⟩)) := by
  simp only [run, hinst, hreal]

/-- C3 witness: spec scenario A at concrete paths; the realized path shows
up as `output_paths` and as the single `drvs` element and the phase-1 source
list `/home/u/shell.nix` is preserved untouched. -/
theorem run_success_exposes_realized_witness :
    run (fun _ => .ok (⟨.text "/nix/store/real-out" ⟩, ⟨11⟩)) ⟨4⟩
        ⟨⟨0⟩, [ .text "/nix/store/d1" ],
          [ .text "evaluating file '/home/u/shell.nix'",
            .text "trace: lorri attribute: 'shell' -> '/nix/store/s1'",
            .text "trace: lorri attribute: 'shell_gc_root' -> '/nix/store/s2'" ]⟩
      = .ok (.ok (.Success ⟨⟨.text "/nix/store/real-out" ⟩,
          ((⟨.text "/nix/store/real-out" ⟩, []), ⟨11⟩),
          [ "/home/u/shell.nix" ]⟩)) :=
  run_success_exposes_realized _ ⟨4⟩ _
    ⟨⟨⟨ "/nix/store/s1" ⟩, ⟨ "/nix/store/s2" ⟩⟩,
      ((⟨.text "/nix/store/d1" ⟩, []), ⟨4⟩), [ "/home/u/shell.nix" ]⟩
    ⟨.text "/nix/store/real-out" ⟩ ⟨11⟩ (by decide) rfl
